import Mathlib

/-!
Shallow embedding of the tiling/blending controller of
`ltx_video/models/autoencoders/vae.py` (class `AutoencoderKLWrapper`).

Volumes are 5-dimensional numeric arrays (batch, channel, time, height,
width).  We model a volume as a shape together with a total data function;
only indices below the shape are meaningful, and tensor equality is the
decidable `Tensor5.extEq` (equal shapes and equal data inside the shape).
Scalars are rationals: the claims under study concern index arithmetic,
slicing, and the linear blend weights, all of which Python evaluates with
exact results on the inputs involved.

The encoder / decoder networks, the quant convolutions and the BatchNorm3d
application are opaque to the tiling core (the spec's "Transform Adapter");
they appear as function parameters of the controller definitions, exactly
as the source treats them as black boxes.
-/

/-- A 5-D volume: shape (batch, channel, time, height, width) plus data. -/
structure Tensor5 where
  nB : ℕ
  nC : ℕ
  nT : ℕ
  nH : ℕ
  nW : ℕ
  data : ℕ → ℕ → ℕ → ℕ → ℕ → ℚ

/-- Extensional equality of volumes: same shape, same data inside the shape. -/
def Tensor5.extEq (a b : Tensor5) : Prop :=
  a.nB = b.nB ∧ a.nC = b.nC ∧ a.nT = b.nT ∧ a.nH = b.nH ∧ a.nW = b.nW ∧
  ∀ i < a.nB, ∀ c < a.nC, ∀ k < a.nT, ∀ h < a.nH, ∀ w < a.nW,
    a.data i c k h w = b.data i c k h w

instance (a b : Tensor5) : Decidable (Tensor5.extEq a b) := by
  unfold Tensor5.extEq; infer_instance

/-- Python `int()` applied to an exact rational: truncation toward zero. -/
def pyInt (q : ℚ) : ℤ := if 0 ≤ q then ⌊q⌋ else ⌈q⌉

/-- Resolve a (possibly negative) Python slice bound against an axis length:
negative indices count from the end, and the result is clamped to `[0, len]`. -/
def pyIdx (len : ℕ) (i : ℤ) : ℕ :=
  (if i < 0 then max 0 ((len : ℤ) + i) else min i (len : ℤ)).toNat

/-- Python `range(0, stop, step)` for a positive step (the source only ever
starts at 0; `step = 0` raises in Python and never occurs in the modelled
configurations, we return `[]` for totality). -/
def rangeStep (stop step : ℕ) : List ℕ :=
  if step = 0 then [] else (List.range ((stop + step - 1) / step)).map (· * step)

/-- `z[:, :, lo:hi, :, :]` — slice along the time axis. -/
def pySliceT (t : Tensor5) (lo hi : ℤ) : Tensor5 :=
  let s := pyIdx t.nT lo
  let e := pyIdx t.nT hi
  { t with nT := e - s, data := fun b c k h w => t.data b c (s + k) h w }

/-- `z[:, :, :, lo:hi, :]` — slice along the height axis. -/
def pySliceH (t : Tensor5) (lo hi : ℤ) : Tensor5 :=
  let s := pyIdx t.nH lo
  let e := pyIdx t.nH hi
  { t with nH := e - s, data := fun b c k h w => t.data b c k (s + h) w }

/-- `z[:, :, :, :, lo:hi]` — slice along the width axis. -/
def pySliceW (t : Tensor5) (lo hi : ℤ) : Tensor5 :=
  let s := pyIdx t.nW lo
  let e := pyIdx t.nW hi
  { t with nW := e - s, data := fun b c k h w => t.data b c k h (s + w) }

/-- `z[:, lo:hi, :, :, :]` — slice along the channel axis. -/
def pySliceC (t : Tensor5) (lo hi : ℤ) : Tensor5 :=
  let s := pyIdx t.nC lo
  let e := pyIdx t.nC hi
  { t with nC := e - s, data := fun b c k h w => t.data b (s + c) k h w }

/-- `torch.cat([a, b], dim=2)` — concatenation along time (non-concatenated
extents are taken from `a`, as Python requires them to agree). -/
def catT (a b : Tensor5) : Tensor5 :=
  { a with
    nT := a.nT + b.nT
    data := fun i c k h w =>
      if k < a.nT then a.data i c k h w else b.data i c (k - a.nT) h w }

/-- `torch.cat([a, b], dim=3)` — concatenation along height. -/
def catH (a b : Tensor5) : Tensor5 :=
  { a with
    nH := a.nH + b.nH
    data := fun i c k h w =>
      if h < a.nH then a.data i c k h w else b.data i c k (h - a.nH) w }

/-- `torch.cat([a, b], dim=4)` — concatenation along width. -/
def catW (a b : Tensor5) : Tensor5 :=
  { a with
    nW := a.nW + b.nW
    data := fun i c k h w =>
      if w < a.nW then a.data i c k h w else b.data i c k h (w - a.nW) }

/-- `torch.cat([a, b], dim=1)` — concatenation along channels. -/
def catC (a b : Tensor5) : Tensor5 :=
  { a with
    nC := a.nC + b.nC
    data := fun i c k h w =>
      if c < a.nC then a.data i c k h w else b.data i (c - a.nC) k h w }

/-- The empty volume (used only as the vacuous base of list concatenation;
`torch.cat` on the empty list raises and never occurs in the claims). -/
def Tensor5.empty : Tensor5 := ⟨0, 0, 0, 0, 0, fun _ _ _ _ _ => 0⟩

/-- `torch.cat(ts, dim=2)` over a list of volumes. -/
def catTList : List Tensor5 → Tensor5
  | [] => Tensor5.empty
  | [t] => t
  | t :: rest => catT t (catTList rest)

/-- `torch.cat(ts, dim=3)` over a list of volumes. -/
def catHList : List Tensor5 → Tensor5
  | [] => Tensor5.empty
  | [t] => t
  | t :: rest => catH t (catHList rest)

/-- `torch.cat(ts, dim=4)` over a list of volumes. -/
def catWList : List Tensor5 → Tensor5
  | [] => Tensor5.empty
  | [t] => t
  | t :: rest => catW t (catWList rest)

/-- One step of the in-place assignment `b[:, :, k, :, :] = slice`. -/
def setSliceT (t : Tensor5) (k : ℕ) (s : ℕ → ℕ → ℕ → ℕ → ℚ) : Tensor5 :=
  { t with data := fun i c k2 h w => if k2 = k then s i c h w else t.data i c k2 h w }

/-- One step of the in-place assignment `b[:, :, :, y, :] = slice`. -/
def setSliceH (t : Tensor5) (y : ℕ) (s : ℕ → ℕ → ℕ → ℕ → ℚ) : Tensor5 :=
  { t with data := fun i c k h2 w => if h2 = y then s i c k w else t.data i c k h2 w }

/-- One step of the in-place assignment `b[:, :, :, :, x] = slice`. -/
def setSliceW (t : Tensor5) (x : ℕ) (s : ℕ → ℕ → ℕ → ℕ → ℚ) : Tensor5 :=
  { t with data := fun i c k h w2 => if w2 = x then s i c k h else t.data i c k h w2 }

/-- `AutoencoderKLWrapper.blend_z` (source lines 198–206): clamp the blend
extent by both time extents, then for `z` in `range(blend_extent)` overwrite
`b[:, :, z]` with the linear cross-fade from the trailing edge of `a`; the
Python negative index `a[:, :, -blend_extent + z]` is `a`'s slice
`a.nT - blend_extent + z`.  The loop is a left fold mirroring the in-place
mutation of `b`. -/
def blend_z (a b : Tensor5) (blendExtent : ℤ) : Tensor5 :=
  let be := min (min (a.nT : ℤ) (b.nT : ℤ)) blendExtent
  (List.range be.toNat).foldl
    (fun acc z =>
      setSliceT acc z (fun i c h w =>
        a.data i c (a.nT - be.toNat + z) h w * (1 - (z : ℚ) / (be : ℚ)) +
        acc.data i c z h w * ((z : ℚ) / (be : ℚ))))
    b

/-- `AutoencoderKLWrapper.blend_v` (source lines 208–216): the same
cross-fade along the height axis. -/
def blend_v (a b : Tensor5) (blendExtent : ℤ) : Tensor5 :=
  let be := min (min (a.nH : ℤ) (b.nH : ℤ)) blendExtent
  (List.range be.toNat).foldl
    (fun acc y =>
      setSliceH acc y (fun i c k w =>
        a.data i c k (a.nH - be.toNat + y) w * (1 - (y : ℚ) / (be : ℚ)) +
        acc.data i c k y w * ((y : ℚ) / (be : ℚ))))
    b

/-- `AutoencoderKLWrapper.blend_h` (source lines 218–226): the same
cross-fade along the width axis. -/
def blend_h (a b : Tensor5) (blendExtent : ℤ) : Tensor5 :=
  let be := min (min (a.nW : ℤ) (b.nW : ℤ)) blendExtent
  (List.range be.toNat).foldl
    (fun acc x =>
      setSliceW acc x (fun i c k h =>
        a.data i c k h (a.nW - be.toNat + x) * (1 - (x : ℚ) / (be : ℚ)) +
        acc.data i c k h x * ((x : ℚ) / (be : ℚ))))
    b

/-- The latent normalizer chosen in `__init__` (source lines 79–85):
`BatchNorm2d` when `dims == 2`, `BatchNorm3d` otherwise, `Identity` when
latent-channel normalization is disabled. -/
inductive LatentNorm
  | identity
  | batchNorm2d
  | batchNorm3d
deriving DecidableEq

/-- `isinstance(self.latent_norm_out, nn.BatchNorm3d)`. -/
def LatentNorm.isBN3 : LatentNorm → Bool
  | .batchNorm3d => true
  | _ => false

/-- `isinstance(self.latent_norm_out, nn.BatchNorm2d)`. -/
def LatentNorm.isBN2 : LatentNorm → Bool
  | .batchNorm2d => true
  | _ => false

/-- The Python exceptions the modelled code can raise. -/
inductive PyError
  | assertionError
  | notImplementedError
deriving DecidableEq

/-- The mutable configuration of `AutoencoderKLWrapper` that the tiling
controllers read (the spec's Tiling Policy). -/
structure VaeState where
  use_z_tiling : Bool
  use_hw_tiling : Bool
  z_sample_size : ℤ
  dims : ℤ
  latentNorm : LatentNorm
  tile_sample_min_size : ℤ
  tile_latent_min_size : ℤ
  tile_overlap_factor : ℚ

/-- `set_tiling_params` (source lines 122–127): stores the sample size,
recomputes `tile_latent_min_size = int(sample_size / 32)` and stores the
overlap factor. -/
def set_tiling_params (s : VaeState) (sample_size : ℤ) (overlap_factor : ℚ) : VaeState :=
  { s with
    tile_sample_min_size := sample_size
    tile_latent_min_size := pyInt ((sample_size : ℚ) / 32)
    tile_overlap_factor := overlap_factor }

/-- The latent normalizer chosen in `__init__` from `dims` and
`normalize_latent_channels`. -/
def initLatentNorm (dims : ℤ) (normalize : Bool) : LatentNorm :=
  if normalize then (if dims = 2 then .batchNorm2d else .batchNorm3d) else .identity

/-- `__init__` (source lines 31–94): tiling disabled, `z_sample_size = 1`,
then `set_tiling_params(sample_size, overlap_factor=0.25)`. -/
def initState (dims sample_size : ℤ) (normalize : Bool) : VaeState :=
  set_tiling_params
    { use_z_tiling := false
      use_hw_tiling := false
      z_sample_size := 1
      dims := dims
      latentNorm := initLatentNorm dims normalize
      tile_sample_min_size := 0
      tile_latent_min_size := 0
      tile_overlap_factor := 0 }
    sample_size (1 / 4)

/-- `enable_z_tiling` (source lines 129–141).  The Python method first sets
`use_z_tiling = z_sample_size > 1` and stores `z_sample_size`, and only then
runs the `assert`; we therefore return the updated state together with the
raised error, if any.  The assert condition is
`z_sample_size % 4 == 0 or z_sample_size == 1` (Python `%` with a positive
modulus agrees with `Int.emod`). -/
def enable_z_tiling (s : VaeState) (z_sample_size : ℤ) : VaeState × Option PyError :=
  let s' := { s with
    use_z_tiling := decide (z_sample_size > 1)
    z_sample_size := z_sample_size }
  (s', if z_sample_size % 4 = 0 ∨ z_sample_size = 1 then none else some .assertionError)

/-- `disable_z_tiling` (source lines 142–147). -/
def disable_z_tiling (s : VaeState) : VaeState := { s with use_z_tiling := false }

/-- `enable_hw_tiling` (source lines 149–153). -/
def enable_hw_tiling (s : VaeState) : VaeState := { s with use_hw_tiling := true }

/-- `disable_hw_tiling` (source lines 155–159). -/
def disable_hw_tiling (s : VaeState) : VaeState := { s with use_hw_tiling := false }

/-- Configurations reachable from `__init__` through the public
configuration methods (including calls whose assert fired: the Python object
outlives a caught exception, so its mutated state remains observable). -/
inductive Reachable : VaeState → Prop
  | init (dims sample_size : ℤ) (normalize : Bool) :
      Reachable (initState dims sample_size normalize)
  | setTiling (s : VaeState) (sample_size : ℤ) (overlap_factor : ℚ) :
      Reachable s → Reachable (set_tiling_params s sample_size overlap_factor)
  | enableZ (s : VaeState) (z : ℤ) :
      Reachable s → Reachable (enable_z_tiling s z).1
  | disableZ (s : VaeState) : Reachable s → Reachable (disable_z_tiling s)
  | enableHW (s : VaeState) : Reachable s → Reachable (enable_hw_tiling s)
  | disableHW (s : VaeState) : Reachable s → Reachable (disable_hw_tiling s)

/-- `_normalize_latent_channels` (source lines 317–329).  The BatchNorm3d
application on the first half of the channels is the opaque `bn`; the
BatchNorm2d branch raises `NotImplementedError`. -/
def normalize_latent_channels (norm : LatentNorm) (bn : Tensor5 → Tensor5)
    (z : Tensor5) : Except PyError Tensor5 :=
  if norm.isBN3 then
    .ok (catC (bn (pySliceC z 0 ((z.nC : ℤ) / 2))) (pySliceC z ((z.nC : ℤ) / 2) (z.nC : ℤ)))
  else if norm.isBN2 then
    .error .notImplementedError
  else
    .ok z

/-- `_unnormalize_latent_channels` (source lines 331–340), translated
branch-for-branch: the first branch tests BatchNorm3d and applies the affine
rescale by the running statistics (opaque `affine`); the `elif` in the source
ALSO tests BatchNorm3d (not BatchNorm2d), so its `raise NotImplementedError`
is unreachable and a BatchNorm2d normalizer falls through to `return z`. -/
def unnormalize_latent_channels (norm : LatentNorm) (affine : Tensor5 → Tensor5)
    (z : Tensor5) : Except PyError Tensor5 :=
  if norm.isBN3 then
    .ok (affine z)
  else if norm.isBN3 then
    .error .notImplementedError
  else
    .ok z

/-- A target-shape hint (the `target_shape` tuple handed to `decode`). -/
structure Shape5 where
  sB : ℤ
  sC : ℤ
  sT : ℤ
  sH : ℤ
  sW : ℤ
deriving DecidableEq

/-- The second loop of `_hw_tiled_encode` / `_hw_tiled_decode`
(source lines 182–193 and 254–265), one row at a time: blend each tile
against the tile directly above (already processed previous row) and then
against the tile to the left (already processed in this row).  `blend_v`
and `blend_h` mutate their second argument in place in the source, so the
updated tile is what later neighbours see; we thread it explicitly. -/
def processRowAux (be : ℤ) (left : Option Tensor5) :
    List (Option Tensor5 × Tensor5) → List Tensor5
  | [] => []
  | (above, t) :: rest =>
    let t1 := match above with
      | some a => blend_v a t be
      | none => t
    let t2 := match left with
      | some l => blend_h l t1 be
      | none => t1
    t2 :: processRowAux be (some t2) rest

/-- Process the grid of tiles row by row, threading the updated previous
row (the source mutates `rows[i]` in place while iterating). -/
def processRows (be : ℤ) : Option (List Tensor5) → List (List Tensor5) → List (List Tensor5)
  | _, [] => []
  | prev, r :: rs =>
    let paired := match prev with
      | none => r.map (fun t => ((none : Option Tensor5), t))
      | some pr => (pr.zip r).map (fun p => (some p.1, p.2))
    let r2 := processRowAux be none paired
    r2 :: processRows be (some r2) rs

/-- `tile[:, :, :, :row_limit, :row_limit]`. -/
def cropHW (t : Tensor5) (rowLimit : ℤ) : Tensor5 :=
  pySliceW (pySliceH t 0 rowLimit) 0 rowLimit

/-- `_hw_tiled_encode` (source lines 161–196), the Spatial Tiling
Controller's encode direction.  `encq` is the opaque composite
`self.quant_conv ∘ self.encoder` applied per tile. -/
def hw_tiled_encode (st : VaeState) (encq : Tensor5 → Tensor5) (x : Tensor5) : Tensor5 :=
  let overlap_size := (pyInt ((st.tile_sample_min_size : ℚ) * (1 - st.tile_overlap_factor))).toNat
  let blend_extent := pyInt ((st.tile_latent_min_size : ℚ) * st.tile_overlap_factor)
  let row_limit := st.tile_latent_min_size - blend_extent
  let rows := (rangeStep x.nH overlap_size).map (fun (i : ℕ) =>
    (rangeStep x.nW overlap_size).map (fun (j : ℕ) =>
      encq (pySliceW (pySliceH x (i : ℤ) ((i : ℤ) + st.tile_sample_min_size))
        (j : ℤ) ((j : ℤ) + st.tile_sample_min_size))))
  catHList ((processRows blend_extent none rows).map (fun r =>
    catWList (r.map (fun t => cropHW t row_limit))))

/-- `_hw_tiled_decode` (source lines 228–268), the Spatial Tiling
Controller's decode direction.  `decq` is the opaque composite
`self.decoder ∘ self.post_quant_conv` (with the timestep hint already
fixed), receiving the per-tile target shape whose height/width are pinned
to `tile_sample_min_size`. -/
def hw_tiled_decode (st : VaeState) (decq : Tensor5 → Shape5 → Tensor5)
    (z : Tensor5) (targetShape : Shape5) : Tensor5 :=
  let overlap_size := (pyInt ((st.tile_latent_min_size : ℚ) * (1 - st.tile_overlap_factor))).toNat
  let blend_extent := pyInt ((st.tile_sample_min_size : ℚ) * st.tile_overlap_factor)
  let row_limit := st.tile_sample_min_size - blend_extent
  let tile_target_shape := { targetShape with
    sH := st.tile_sample_min_size
    sW := st.tile_sample_min_size }
  let rows := (rangeStep z.nH overlap_size).map (fun (i : ℕ) =>
    (rangeStep z.nW overlap_size).map (fun (j : ℕ) =>
      decq (pySliceW (pySliceH z (i : ℤ) ((i : ℤ) + st.tile_latent_min_size))
        (j : ℤ) ((j : ℤ) + st.tile_latent_min_size)) tile_target_shape))
  catHList ((processRows blend_extent none rows).map (fun r =>
    catWList (r.map (fun t => cropHW t row_limit))))

/-- The guard of the temporal path in both `encode` (source line 273) and
`decode` (source line 370): the Python chained comparison
`self.use_z_tiling and z.shape[2] > (self.z_sample_size + 1) > 1`. -/
def zPathCond (st : VaeState) (timeLen : ℕ) : Bool :=
  st.use_z_tiling && decide ((timeLen : ℤ) > st.z_sample_size + 1)
    && decide (st.z_sample_size + 1 > 1)

/-- The time window `z[:, :, i : i + tile_sample_min_tsize + 1, :, :]`
extracted by the temporal encode path at origin `i`
(source line 285; `tile_sample_min_tsize = z_sample_size * 8`). -/
def encZWindow (st : VaeState) (z : Tensor5) (i : ℕ) : Tensor5 :=
  pySliceT z i ((i : ℤ) + st.z_sample_size * 8 + 1)

/-- The time window `z[:, :, i : i + tile_latent_min_tsize + 1, :, :]`
extracted by the temporal decode path at origin `i` (source line 383). -/
def decZWindow (st : VaeState) (z : Tensor5) (i : ℕ) : Tensor5 :=
  pySliceT z i ((i : ℤ) + st.z_sample_size + 1)

/-- `tile[:, :, 1:, :, :]` — drop the leading frame of a segment. -/
def dropLeadT (t : Tensor5) : Tensor5 := pySliceT t 1 (t.nT : ℤ)

/-- `tile[:, :, :limit, :, :]` — keep the leading `limit` frames. -/
def cropT (t : Tensor5) (limit : ℤ) : Tensor5 := pySliceT t 0 limit

/-- The tail of the composition loop shared by the temporal encode and
decode paths (source lines 293–299 and 395–401): each segment is blended
against the previous segment as it stands in the row (`blend_z` mutates the
list entry in place in the source, so the blended tile is what the next
iteration sees) and cropped to its leading `t_limit` frames. -/
def composeRowZAux (be t_limit : ℤ) (prev : Tensor5) : List Tensor5 → List Tensor5
  | [] => []
  | t :: rest =>
    let t2 := blend_z prev t be
    cropT t2 t_limit :: composeRowZAux be t_limit t2 rest

/-- The full composition loop: the first segment is cropped to
`t_limit + 1` frames, the rest are blended and cropped to `t_limit`. -/
def composeRowZ (be t_limit : ℤ) : List Tensor5 → List Tensor5
  | [] => []
  | t :: rest => cropT t (t_limit + 1) :: composeRowZAux be t_limit t rest

/-- The temporally tiled encode path (source lines 273–301).  `encPlain`
is the opaque `_encode`, `encq` feeds the Spatial Tiling Controller when
spatial tiling is also enabled.  Derived geometry:
`tile_sample_min_tsize = z_sample_size * 8`, overlap factor fixed at 0.25,
`overlap_size = int(tile_sample_min_tsize * 0.75)`,
`blend_extent = int(tile_latent_min_tsize * 0.25)`,
`t_limit = tile_latent_min_tsize - blend_extent`. -/
def encodeZTiled (st : VaeState) (encPlain encq : Tensor5 → Tensor5) (z : Tensor5) : Tensor5 :=
  let tile_latent_min_tsize := st.z_sample_size
  let tile_sample_min_tsize := tile_latent_min_tsize * 8
  let tile_overlap_factor : ℚ := 1 / 4
  let overlap_size := (pyInt ((tile_sample_min_tsize : ℚ) * (1 - tile_overlap_factor))).toNat
  let blend_extent := pyInt ((tile_latent_min_tsize : ℚ) * tile_overlap_factor)
  let t_limit := tile_latent_min_tsize - blend_extent
  let row := (rangeStep z.nT overlap_size).map (fun i =>
    let tile := encZWindow st z i
    let tile := if st.use_hw_tiling then hw_tiled_encode st encq tile else encPlain tile
    if i > 0 then dropLeadT tile else tile)
  catTList (composeRowZ blend_extent t_limit row)

/-- `encode` (source lines 270–315) up to the (opaque) posterior
construction: the returned volume is the `moments` tensor. -/
def encode (st : VaeState) (encPlain encq : Tensor5 → Tensor5) (z : Tensor5) : Tensor5 :=
  if zPathCond st z.nT then
    encodeZTiled st encPlain encq z
  else if st.use_hw_tiling && decide (z.nT > 1) then
    hw_tiled_encode st encq z
  else
    encPlain z

/-- The per-segment target-shape override built (but, in the source, never
passed on) by the temporal decode path:
`target_shape_split = list(target_shape); target_shape_split[2] = tile.shape[2] * 8`
(source lines 384–385). -/
def decodeTileTargetShapeSplit (targetShape : Shape5) (tile : Tensor5) : Shape5 :=
  { targetShape with sT := (tile.nT : ℤ) * 8 }

/-- The temporally tiled decode path (source lines 370–403).  `decPlain`
is the opaque `_decode`; `decq` feeds the Spatial Tiling Controller when
spatial tiling is also enabled.  Derived geometry mirrors the encode path
with latent and sample roles swapped.  Note, faithfully to the source,
each segment is decoded with the caller's overall `targetShape`: the
computed `target_shape_split` override is unused.  (The cast
`.to(torch.float16).cpu()` of each decoded segment is a device/precision
detail outside the model.) -/
def decodeZTiled (st : VaeState) (decPlain decq : Tensor5 → Shape5 → Tensor5)
    (z : Tensor5) (targetShape : Shape5) : Tensor5 :=
  let tile_latent_min_tsize := st.z_sample_size
  let tile_sample_min_tsize := tile_latent_min_tsize * 8
  let tile_overlap_factor : ℚ := 1 / 4
  let overlap_size := (pyInt ((tile_latent_min_tsize : ℚ) * (1 - tile_overlap_factor))).toNat
  let blend_extent := pyInt ((tile_sample_min_tsize : ℚ) * tile_overlap_factor)
  let t_limit := tile_sample_min_tsize - blend_extent
  let row := (rangeStep z.nT overlap_size).map (fun i =>
    let tile := decZWindow st z i
    let _target_shape_split := decodeTileTargetShapeSplit targetShape tile
    let decoded := if st.use_hw_tiling
      then hw_tiled_decode st decq tile targetShape
      else decPlain tile targetShape
    if i > 0 then dropLeadT decoded else decoded)
  catTList (composeRowZ blend_extent t_limit row)

/-- `decode` (source lines 362–418): the `assert target_shape is not None`
runs before anything else; then the temporal guard, then the
spatial-or-plain dispatch (note: unlike `encode`, no `z.shape[2] > 1` test
guards the spatial branch). -/
def decode (st : VaeState) (decPlain decq : Tensor5 → Shape5 → Tensor5)
    (z : Tensor5) (targetShape : Option Shape5) : Except PyError Tensor5 :=
  match targetShape with
  | none => .error .assertionError
  | some ts =>
    if zPathCond st z.nT then
      .ok (decodeZTiled st decPlain decq z ts)
    else if st.use_hw_tiling then
      .ok (hw_tiled_decode st decq z ts)
    else
      .ok (decPlain z ts)

/-! ## Spec-side definitions (formalizing the claims' wording) -/

/-- Closed form of the blend operator along time, as the claim states it
but with the effective extent clamped first (the amended claim): for
`k < min(blendExtent, extent a, extent b)` the slice is
`a[extent(a) − be + k]·(1 − k/be) + b[k]·(k/be)` with `be` the clamped
extent; every slice at or beyond the bound is unchanged, and the shape is
`b`'s. -/
def blendZPointwise (a b : Tensor5) (blendExtent : ℤ) : Tensor5 :=
  let be := min (min (a.nT : ℤ) (b.nT : ℤ)) blendExtent
  { b with data := fun i c k h w =>
      if (k : ℤ) < be then
        a.data i c (a.nT - be.toNat + k) h w * (1 - (k : ℚ) / (be : ℚ)) +
        b.data i c k h w * ((k : ℚ) / (be : ℚ))
      else b.data i c k h w }

/-- Closed form of the blend operator along height (amended claim). -/
def blendVPointwise (a b : Tensor5) (blendExtent : ℤ) : Tensor5 :=
  let be := min (min (a.nH : ℤ) (b.nH : ℤ)) blendExtent
  { b with data := fun i c k h w =>
      if (h : ℤ) < be then
        a.data i c k (a.nH - be.toNat + h) w * (1 - (h : ℚ) / (be : ℚ)) +
        b.data i c k h w * ((h : ℚ) / (be : ℚ))
      else b.data i c k h w }

/-- Closed form of the blend operator along width (amended claim). -/
def blendHPointwise (a b : Tensor5) (blendExtent : ℤ) : Tensor5 :=
  let be := min (min (a.nW : ℤ) (b.nW : ℤ)) blendExtent
  { b with data := fun i c k h w =>
      if (w : ℤ) < be then
        a.data i c k h (a.nW - be.toNat + w) * (1 - (w : ℚ) / (be : ℚ)) +
        b.data i c k h w * ((w : ℚ) / (be : ℚ))
      else b.data i c k h w }

/-- The blend operator along time exactly as claim C4 words it: the loop
bound is `min(blendExtent, extent a, extent b)` but the source index and
the interpolation weights use the UNclamped `blendExtent`; a source index
outside `a`'s extent has no value (rendered here as 0). -/
def blendZClaimOrig (a b : Tensor5) (blendExtent : ℤ) : Tensor5 :=
  let bound := min (min (a.nT : ℤ) (b.nT : ℤ)) blendExtent
  { b with data := fun i c k h w =>
      if (k : ℤ) < bound then
        (if 0 ≤ (a.nT : ℤ) - blendExtent + k ∧ (a.nT : ℤ) - blendExtent + k < (a.nT : ℤ)
          then a.data i c ((a.nT : ℤ) - blendExtent + k).toNat h w else 0) *
          (1 - (k : ℚ) / (blendExtent : ℚ)) +
        b.data i c k h w * ((k : ℚ) / (blendExtent : ℚ))
      else b.data i c k h w }

/-- The spec's degenerate spatial encode with `overlapFactor = 0`: a pure
concatenation of cropped tile outputs (stride = the full tile size, no
cross-fade, crop at the full latent tile size). -/
def hwEncodeConcat (st : VaeState) (encq : Tensor5 → Tensor5) (x : Tensor5) : Tensor5 :=
  catHList ((rangeStep x.nH st.tile_sample_min_size.toNat).map (fun (i : ℕ) =>
    catWList ((rangeStep x.nW st.tile_sample_min_size.toNat).map (fun (j : ℕ) =>
      cropHW (encq (pySliceW (pySliceH x (i : ℤ) ((i : ℤ) + st.tile_sample_min_size))
        (j : ℤ) ((j : ℤ) + st.tile_sample_min_size))) st.tile_latent_min_size))))

/-- The temporal encode stride, `strideFor(sampleTimeTileSize)` =
`int(z_sample_size * 8 * (1 - 0.25))`. -/
def encZStride (st : VaeState) : ℤ :=
  pyInt ((st.z_sample_size * 8 : ℤ) * ((1 : ℚ) - 1 / 4))

/-- The temporal encode blend extent, `blendExtentFor(zTileSize, 0.25)` =
`int(z_sample_size * 0.25)`. -/
def encZBlendExtent (st : VaeState) : ℤ := pyInt ((st.z_sample_size : ℚ) * (1 / 4))

/-- The temporal encode crop bound, `timeLimit = zTileSize − blendExtent`. -/
def encZTimeLimit (st : VaeState) : ℤ := st.z_sample_size - encZBlendExtent st

/-- Number of temporal windows: origins `0, stride, 2·stride, …` below `T`. -/
def encZNumWindows (st : VaeState) (T : ℕ) : ℕ :=
  (T + (encZStride st).toNat - 1) / (encZStride st).toNat

/-- Segment `j` of the claimed temporal encode pipeline: the window at
origin `j · stride` is passed to the per-window delegate `f`, and every
segment after the first drops its leading frame. -/
def encZSegSpec (st : VaeState) (f : Tensor5 → Tensor5) (z : Tensor5) (j : ℕ) : Tensor5 :=
  let w := pySliceT z (j * (encZStride st).toNat)
    ((j * (encZStride st).toNat : ℤ) + st.z_sample_size * 8 + 1)
  if j = 0 then f w else dropLeadT (f w)

/-- The chain of blends of the claimed temporal encode pipeline: each
non-first segment is blended (along time) against the previous segment as
already blended. -/
def encZChainSpec (st : VaeState) (f : Tensor5 → Tensor5) (z : Tensor5) : ℕ → Tensor5
  | 0 => encZSegSpec st f z 0
  | j + 1 => blend_z (encZChainSpec st f z j) (encZSegSpec st f z (j + 1)) (encZBlendExtent st)

/-- The claimed temporal encode pipeline (amended claim C5): blend, crop
the first segment to `timeLimit + 1` leading frames and the others to
`timeLimit`, and concatenate along time in order. -/
def encodeZTiledSpec (st : VaeState) (f : Tensor5 → Tensor5) (z : Tensor5) : Tensor5 :=
  catTList ((List.range (encZNumWindows st z.nT)).map (fun j =>
    if j = 0 then cropT (encZChainSpec st f z j) (encZTimeLimit st + 1)
    else cropT (encZChainSpec st f z j) (encZTimeLimit st)))

/-! ## Concrete fixtures used by witnesses and counterexamples -/

/-- A state reached by `__init__` followed by `enable_z_tiling(8)`. -/
def stEngage : VaeState := (enable_z_tiling (initState 3 512 false) 8).1

/-- A 1×1×10×1×1 volume of zeros. -/
def zTen : Tensor5 := ⟨1, 1, 10, 1, 1, fun _ _ _ _ _ => 0⟩

/-- Extract one scalar probe from a decode result (0 on error). -/
def exceptVal (e : Except PyError Tensor5) : ℚ :=
  match e with
  | .ok t => t.data 0 0 0 0 0
  | .error _ => 0

/-- Spatial tiling on, temporal tiling off, tiny tile geometry. -/
def stHW : VaeState :=
  { use_z_tiling := false
    use_hw_tiling := true
    z_sample_size := 1
    dims := 3
    latentNorm := .identity
    tile_sample_min_size := 4
    tile_latent_min_size := 2
    tile_overlap_factor := 1 / 4 }

/-- A single-frame 1×1×1×2×2 volume. -/
def zOneFrame : Tensor5 := ⟨1, 1, 1, 2, 2, fun _ _ _ _ _ => 0⟩

/-- A small decode target shape. -/
def tsHW : Shape5 := ⟨1, 1, 8, 4, 4⟩

/-- A stand-in plain decoder returning the constant 7. -/
def decConst7 : Tensor5 → Shape5 → Tensor5 :=
  fun _ _ => ⟨1, 1, 1, 1, 1, fun _ _ _ _ _ => 7⟩

/-- A stand-in per-tile decoder returning the constant 9 on a 3×3 tile. -/
def decConst9 : Tensor5 → Shape5 → Tensor5 :=
  fun _ _ => ⟨1, 1, 1, 3, 3, fun _ _ _ _ _ => 9⟩

/-- A state reached by `__init__` followed by `enable_z_tiling(4)`. -/
def stZ4 : VaeState := (enable_z_tiling (initState 3 512 false) 4).1

/-- A 1×1×7×1×1 volume of zeros (in latent time units for decode). -/
def zSeven : Tensor5 := ⟨1, 1, 7, 1, 1, fun _ _ _ _ _ => 0⟩

/-- A decode target shape whose time extent (80) differs from every
per-segment override (first segment: 5 × 8 = 40). -/
def tsProbe : Shape5 := ⟨1, 1, 80, 8, 8⟩

/-- A probing decoder stand-in: it writes the time extent of the target
shape it RECEIVES into every entry of its output, so the decode output
reveals which target shape was passed down. -/
def probeShapeDec : Tensor5 → Shape5 → Tensor5 :=
  fun _ sh => ⟨1, 1, 4, 1, 1, fun _ _ _ _ _ => (sh.sT : ℚ)⟩

/-- Spatial tiling on with overlap factor 0 (degenerate geometry). -/
def stConcat : VaeState :=
  { use_z_tiling := false
    use_hw_tiling := true
    z_sample_size := 1
    dims := 3
    latentNorm := .identity
    tile_sample_min_size := 2
    tile_latent_min_size := 2
    tile_overlap_factor := 0 }

/-- A 1×1×2×3×3 volume with distinct entries. -/
def xGrid : Tensor5 :=
  ⟨1, 1, 2, 3, 3, fun _ _ k h w => (k : ℚ) * 100 + (h : ℚ) * 10 + (w : ℚ)⟩

/-- A 1×1×2×1×1 volume of twos (time extent 2). -/
def aTwo : Tensor5 := ⟨1, 1, 2, 1, 1, fun _ _ _ _ _ => 2⟩

/-- A 1×1×2×1×1 volume of zeros (time extent 2). -/
def bTwo : Tensor5 := ⟨1, 1, 2, 1, 1, fun _ _ _ _ _ => 0⟩

/-- A 1×1×6×1×1 volume of zeros: with `z_sample_size = 4` the temporal
encode path engages (6 > 5) yet the single extracted window is far shorter
than the nominal `4·8 + 1 = 33` frames. -/
def zSix : Tensor5 := ⟨1, 1, 6, 1, 1, fun _ _ _ _ _ => 0⟩

/-! ## Theorems -/

/-- Volumes with equal fields are equal. -/
theorem Tensor5.ext (a b : Tensor5) (hB : a.nB = b.nB) (hC : a.nC = b.nC)
    (hT : a.nT = b.nT) (hH : a.nH = b.nH) (hW : a.nW = b.nW)
    (hd : a.data = b.data) : a = b := by
  cases a; cases b
  cases hB; cases hC; cases hT; cases hH; cases hW; cases hd
  rfl

lemma pyInt_nonneg_eq_floor (q : ℚ) (h : 0 ≤ q) : pyInt q = ⌊q⌋ := by
  simp [pyInt, h]

/-- Every configuration reachable through the public methods keeps the
invariant: when temporal tiling is switched on, the stored temporal tile
size exceeds 1 (because `enable_z_tiling` sets
`use_z_tiling = z_sample_size > 1`). -/
lemma Reachable.use_z_imp_size {s : VaeState} (h : Reachable s) :
    s.use_z_tiling = true → s.z_sample_size > 1 := by
  induction h with
  | init dims sample_size normalize => simp [initState, set_tiling_params]
  | setTiling s sample_size overlap_factor _ ih =>
      simpa [set_tiling_params] using ih
  | enableZ s z _ _ => simp [enable_z_tiling]
  | disableZ s _ _ => simp [disable_z_tiling]
  | enableHW s _ ih => simpa [enable_hw_tiling] using ih
  | disableHW s _ ih => simpa [disable_hw_tiling] using ih

/-- C7: `enable_z_tiling(z)` raises its configuration assertion exactly
when `z` is neither 1 nor a multiple of 4; in particular
`enable_z_tiling(5)` fails and `enable_z_tiling(8)` succeeds.  The
rejection is produced by `enable_z_tiling` itself, a pure configuration
step that invokes no tiling operation. -/
theorem enable_z_tiling_rejects_iff (s : VaeState) (z : ℤ) :
    ((enable_z_tiling s z).2 ≠ none ↔ ¬ (z = 1 ∨ z % 4 = 0)) ∧
    (enable_z_tiling s 5).2 = some PyError.assertionError ∧
    (enable_z_tiling s 8).2 = none := by
  refine ⟨?_, by simp [enable_z_tiling], by simp [enable_z_tiling]⟩
  by_cases h : z % 4 = 0 ∨ z = 1 <;> simp [enable_z_tiling, h] <;> tauto

/-- C10: a rejected `enable_z_tiling(z)` call is not atomic: the state was
already mutated when the assertion fired, so afterwards
`use_z_tiling = (z > 1)` and `z_sample_size = z`. -/
theorem enable_z_tiling_mutates_before_assert (s : VaeState) (z : ℤ)
    (h : ¬ (z = 1 ∨ z % 4 = 0)) :
    (enable_z_tiling s z).2 = some PyError.assertionError ∧
    (enable_z_tiling s z).1.use_z_tiling = decide (z > 1) ∧
    (enable_z_tiling s z).1.z_sample_size = z := by
  refine ⟨?_, rfl, rfl⟩
  simp only [enable_z_tiling, ite_eq_right_iff]
  intro hc
  exact absurd (Or.symm hc) h

/-- Witness for C10 at the concrete rejected size 5. -/
theorem enable_z_tiling_mutates_before_assert_witness :
    (enable_z_tiling (initState 3 512 false) 5).2 = some PyError.assertionError ∧
    (enable_z_tiling (initState 3 512 false) 5).1.use_z_tiling = decide ((5 : ℤ) > 1) ∧
    (enable_z_tiling (initState 3 512 false) 5).1.z_sample_size = 5 :=
  enable_z_tiling_mutates_before_assert (initState 3 512 false) 5 (by decide)

/-- C8: `decode` without a target shape fails on the leading assertion:
the very first match of the embedding, before any window extraction,
delegate call or blending, for every state and input. -/
theorem decode_requires_target_shape (st : VaeState)
    (decPlain decq : Tensor5 → Shape5 → Tensor5) (z : Tensor5) :
    decode st decPlain decq z none = .error PyError.assertionError := rfl

/-- C3 (recording the code bug): with the unsupported BatchNorm2d latent
normalizer (`dims = 2` with latent-channel normalization enabled),
`_normalize_latent_channels` does fail fast with `NotImplementedError`,
but `_unnormalize_latent_channels` does not: its `elif` re-tests
BatchNorm3d instead of BatchNorm2d, so it silently returns the input
unchanged. -/
theorem unnormalize_bn2d_silently_returns_input :
    initLatentNorm 2 true = LatentNorm.batchNorm2d ∧
    (∀ bn z, normalize_latent_channels (initLatentNorm 2 true) bn z =
      .error PyError.notImplementedError) ∧
    (∀ affine z, unnormalize_latent_channels (initLatentNorm 2 true) affine z = .ok z) :=
  ⟨rfl, fun _ _ => rfl, fun _ _ => rfl⟩

/-- C6: over every reachable configuration, the temporal guard of both
`encode` and `decode` (`zPathCond`, the chained comparison
`use_z_tiling and T > z_sample_size + 1 > 1`) holds exactly when temporal
tiling is enabled, the time length exceeds `z_sample_size + 1`, and
`z_sample_size > 1`; and both entry points dispatch on that guard, running
the non-temporal path whenever it is false. -/
theorem temporal_path_engages_iff (st : VaeState) (hr : Reachable st) (z : Tensor5) :
    (zPathCond st z.nT = true ↔
      st.use_z_tiling = true ∧ (z.nT : ℤ) > st.z_sample_size + 1 ∧
        st.z_sample_size > 1) ∧
    (∀ encPlain encq, encode st encPlain encq z =
      if zPathCond st z.nT then encodeZTiled st encPlain encq z
      else if st.use_hw_tiling && decide (z.nT > 1) then hw_tiled_encode st encq z
      else encPlain z) ∧
    (∀ decPlain decq ts, decode st decPlain decq z (some ts) =
      if zPathCond st z.nT then .ok (decodeZTiled st decPlain decq z ts)
      else if st.use_hw_tiling then .ok (hw_tiled_decode st decq z ts)
      else .ok (decPlain z ts)) := by
  refine ⟨?_, fun encPlain encq => rfl, fun decPlain decq ts => rfl⟩
  simp only [zPathCond, Bool.and_eq_true, decide_eq_true_eq, gt_iff_lt]
  constructor
  · rintro ⟨⟨hu, h1⟩, _⟩
    exact ⟨hu, h1, hr.use_z_imp_size hu⟩
  · rintro ⟨hu, h1, h2⟩
    exact ⟨⟨hu, h1⟩, by omega⟩

/-- Witness for C6 at a concrete reachable configuration and volume. -/
theorem temporal_path_engages_iff_witness :
    (zPathCond stEngage zTen.nT = true ↔
      stEngage.use_z_tiling = true ∧ (zTen.nT : ℤ) > stEngage.z_sample_size + 1 ∧
        stEngage.z_sample_size > 1) ∧
    (∀ encPlain encq, encode stEngage encPlain encq zTen =
      if zPathCond stEngage zTen.nT then encodeZTiled stEngage encPlain encq zTen
      else if stEngage.use_hw_tiling && decide (zTen.nT > 1) then
        hw_tiled_encode stEngage encq zTen
      else encPlain zTen) ∧
    (∀ decPlain decq ts, decode stEngage decPlain decq zTen (some ts) =
      if zPathCond stEngage zTen.nT then .ok (decodeZTiled stEngage decPlain decq zTen ts)
      else if stEngage.use_hw_tiling then .ok (hw_tiled_decode stEngage decq zTen ts)
      else .ok (decPlain zTen ts)) :=
  temporal_path_engages_iff stEngage
    (Reachable.enableZ _ 8 (Reachable.init 3 512 false)) zTen

/-- C2 counterexample: with spatial tiling enabled and a single-frame
volume (time length 1), `decode` does NOT fall back to the plain `_decode`
path: the claim's asserted fallback output differs from the actual output
(the spatial controller's stand-in writes 9 where the plain stand-in
writes 7). -/
theorem decode_single_frame_not_plain_cex :
    decode stHW decConst7 decConst9 zOneFrame (some tsHW) ≠
      .ok (decConst7 zOneFrame tsHW) :=
  fun h => absurd (congrArg exceptVal h) (of_decide_eq_true (by with_unfolding_all rfl))

/-- C2 amended: `encode` with time length ≤ 1 does fall back to the plain
`_encode` even with spatial tiling enabled, but `decode` dispatches on
`use_hw_tiling` alone: with spatial tiling enabled it hands the whole
volume to `_hw_tiled_decode` regardless of the time length. -/
theorem hw_dispatch_time_le_one (st : VaeState) (encPlain encq : Tensor5 → Tensor5)
    (decPlain decq : Tensor5 → Shape5 → Tensor5) (z : Tensor5) (ts : Shape5)
    (hT : z.nT ≤ 1) :
    encode st encPlain encq z = encPlain z ∧
    (st.use_hw_tiling = true →
      decode st decPlain decq z (some ts) = .ok (hw_tiled_decode st decq z ts)) := by
  have hz : zPathCond st z.nT = false := by
    simp only [zPathCond, Bool.and_eq_false_iff, decide_eq_false_iff_not, not_lt]
    by_cases h1 : st.z_sample_size + 1 > 1
    · left; right; omega
    · right; omega
  constructor
  · simp only [encode, hz, Bool.false_eq_true, if_false]
    have h2 : decide (z.nT > 1) = false := by simp; omega
    simp [h2]
  · intro hw
    simp [decode, hz, hw]

/-- Witness for the amended C2 at a concrete single-frame input with
spatial tiling enabled. -/
theorem hw_dispatch_time_le_one_witness :
    encode stHW (fun t => t) (fun t => t) zOneFrame = zOneFrame ∧
    (stHW.use_hw_tiling = true →
      decode stHW decConst7 decConst9 zOneFrame (some tsHW) =
        .ok (hw_tiled_decode stHW decConst9 zOneFrame tsHW)) :=
  hw_dispatch_time_le_one stHW (fun t => t) (fun t => t) decConst7 decConst9
    zOneFrame tsHW (by decide)

/-- C1 (recording the code bug): on the temporally tiled decode path the
per-segment override `target_shape_split` (time = window length × 8, = 40
for the first window here) is computed but never passed: the probing
delegate `probeShapeDec` reveals that every segment receives the caller's
overall target shape (time = 80). -/
theorem decode_segments_receive_caller_target_shape :
    zPathCond stZ4 zSeven.nT = true ∧
    exceptVal (decode stZ4 probeShapeDec probeShapeDec zSeven (some tsProbe)) =
      (tsProbe.sT : ℚ) ∧
    (decodeTileTargetShapeSplit tsProbe (decZWindow stZ4 zSeven 0)).sT = 40 ∧
    (tsProbe.sT : ℚ) ≠ 40 :=
  of_decide_eq_true (by with_unfolding_all rfl)

lemma blend_z_nonpos (a b : Tensor5) (e : ℤ) (h : e ≤ 0) : blend_z a b e = b := by
  have h0 : (min (min (a.nT : ℤ) (b.nT : ℤ)) e).toNat = 0 :=
    Int.toNat_of_nonpos (le_trans (min_le_right _ _) h)
  simp only [blend_z, h0, List.range_zero, List.foldl_nil]

lemma blend_v_nonpos (a b : Tensor5) (e : ℤ) (h : e ≤ 0) : blend_v a b e = b := by
  have h0 : (min (min (a.nH : ℤ) (b.nH : ℤ)) e).toNat = 0 :=
    Int.toNat_of_nonpos (le_trans (min_le_right _ _) h)
  simp only [blend_v, h0, List.range_zero, List.foldl_nil]

lemma blend_h_nonpos (a b : Tensor5) (e : ℤ) (h : e ≤ 0) : blend_h a b e = b := by
  have h0 : (min (min (a.nW : ℤ) (b.nW : ℤ)) e).toNat = 0 :=
    Int.toNat_of_nonpos (le_trans (min_le_right _ _) h)
  simp only [blend_h, h0, List.range_zero, List.foldl_nil]

lemma processRowAux_nonpos (be : ℤ) (he : be ≤ 0) :
    ∀ (l : List (Option Tensor5 × Tensor5)) (left : Option Tensor5),
      processRowAux be left l = l.map Prod.snd := by
  intro l
  induction l with
  | nil => intro left; rfl
  | cons p rest ih =>
    intro left
    obtain ⟨above, t⟩ := p
    simp only [processRowAux]
    cases above <;> cases left <;>
      simp [blend_v_nonpos _ _ _ he, blend_h_nonpos _ _ _ he, ih]

lemma processRows_nonpos (be : ℤ) (he : be ≤ 0) (n : ℕ) :
    ∀ (rows : List (List Tensor5)), (∀ r ∈ rows, r.length = n) →
    ∀ (prev : Option (List Tensor5)), (∀ pr, prev = some pr → pr.length = n) →
      processRows be prev rows = rows := by
  intro rows
  induction rows with
  | nil => intro _ prev _; cases prev <;> rfl
  | cons r rs ih =>
    intro hlen prev hprev
    have hr : r.length = n := hlen r (List.mem_cons_self _ _)
    have hrest : ∀ q ∈ rs, q.length = n := fun q hq => hlen q (List.mem_cons_of_mem _ hq)
    cases prev with
    | none =>
      simp only [processRows]
      rw [processRowAux_nonpos be he]
      have h2 : (r.map (fun t => ((none : Option Tensor5), t))).map Prod.snd = r := by
        simp [List.map_map]
      rw [h2, ih hrest (some r) (fun pr2 h => by cases h; exact hr)]
    | some pr =>
      simp only [processRows]
      rw [processRowAux_nonpos be he]
      have hlenr : r.length ≤ pr.length := by rw [hprev pr rfl, hr]
      have h2 : ((pr.zip r).map (fun p => ((some p.1 : Option Tensor5), p.2))).map
          Prod.snd = r := by
        rw [List.map_map]
        exact List.map_snd_zip pr r hlenr
      rw [h2, ih hrest (some r) (fun pr2 h => by cases h; exact hr)]

lemma pyInt_intCast (n : ℤ) : pyInt ((n : ℚ)) = n := by
  unfold pyInt
  split
  · exact Int.floor_intCast n
  · exact Int.ceil_intCast n

lemma pyInt_zero : pyInt 0 = 0 := by simpa using pyInt_intCast 0

/-- C9: a non-positive blend extent makes every blend operator the
identity on its second argument (the loop body never runs), and with
overlap factor 0 the Spatial Tiling Controller's encode output is the
pure concatenation of cropped per-tile outputs, with no cross-fade. -/
theorem blend_degenerate_and_pure_concat (a b : Tensor5) (e : ℤ)
    (st : VaeState) (encq : Tensor5 → Tensor5) (x : Tensor5)
    (he : e ≤ 0) (hf : st.tile_overlap_factor = 0) :
    blend_z a b e = b ∧ blend_v a b e = b ∧ blend_h a b e = b ∧
    hw_tiled_encode st encq x = hwEncodeConcat st encq x := by
  refine ⟨blend_z_nonpos a b e he, blend_v_nonpos a b e he, blend_h_nonpos a b e he, ?_⟩
  have hov : pyInt ((st.tile_sample_min_size : ℚ) * (1 - st.tile_overlap_factor)) =
      st.tile_sample_min_size := by
    rw [hf, sub_zero, mul_one, pyInt_intCast]
  have hbe : pyInt ((st.tile_latent_min_size : ℚ) * st.tile_overlap_factor) = 0 := by
    rw [hf, mul_zero, pyInt_zero]
  simp only [hw_tiled_encode, hwEncodeConcat, hov, hbe, sub_zero]
  rw [processRows_nonpos 0 le_rfl ((rangeStep x.nW st.tile_sample_min_size.toNat).length)
    _ ?_ none ?_]
  · simp only [List.map_map, Function.comp_def]
  · intro r hr
    rcases List.mem_map.mp hr with ⟨i, _, rfl⟩
    simp only [List.length_map]
  · intro pr h
    simp at h

/-- Witness for C9 at a concrete overlap-0 configuration and grid. -/
theorem blend_degenerate_and_pure_concat_witness :
    blend_z aTwo bTwo 0 = bTwo ∧ blend_v aTwo bTwo 0 = bTwo ∧
    blend_h aTwo bTwo 0 = bTwo ∧
    hw_tiled_encode stConcat (fun t => t) xGrid =
      hwEncodeConcat stConcat (fun t => t) xGrid :=
  blend_degenerate_and_pure_concat aTwo bTwo 0 stConcat (fun t => t) xGrid
    (by decide) rfl

lemma foldl_setSliceT_range (a b : Tensor5) (m : ℕ) (q : ℚ) (n : ℕ) :
    ((List.range n).foldl
      (fun acc z => setSliceT acc z (fun i c h w =>
        a.data i c (a.nT - m + z) h w * (1 - (z : ℚ) / q) +
        acc.data i c z h w * ((z : ℚ) / q))) b) =
    { b with data := fun i c k h w =>
        if k < n then
          a.data i c (a.nT - m + k) h w * (1 - (k : ℚ) / q) +
          b.data i c k h w * ((k : ℚ) / q)
        else b.data i c k h w } := by
  induction n with
  | zero => rfl
  | succ n ih =>
    rw [List.range_succ, List.foldl_append, ih]
    simp only [List.foldl_cons, List.foldl_nil]
    apply Tensor5.ext <;> try rfl
    funext i c k h w
    simp only [setSliceT]
    by_cases hk : k = n
    · subst hk
      simp [Nat.lt_irrefl, Nat.lt_succ_self]
    · by_cases hk2 : k < n
      · simp [hk, hk2, Nat.lt_succ_of_lt hk2]
      · have hk3 : ¬ k < n + 1 := by omega
        simp [hk, hk2, hk3]

lemma foldl_setSliceH_range (a b : Tensor5) (m : ℕ) (q : ℚ) (n : ℕ) :
    ((List.range n).foldl
      (fun acc y => setSliceH acc y (fun i c k w =>
        a.data i c k (a.nH - m + y) w * (1 - (y : ℚ) / q) +
        acc.data i c k y w * ((y : ℚ) / q))) b) =
    { b with data := fun i c k h w =>
        if h < n then
          a.data i c k (a.nH - m + h) w * (1 - (h : ℚ) / q) +
          b.data i c k h w * ((h : ℚ) / q)
        else b.data i c k h w } := by
  induction n with
  | zero => rfl
  | succ n ih =>
    rw [List.range_succ, List.foldl_append, ih]
    simp only [List.foldl_cons, List.foldl_nil]
    apply Tensor5.ext <;> try rfl
    funext i c k h w
    simp only [setSliceH]
    by_cases hk : h = n
    · subst hk
      simp [Nat.lt_irrefl, Nat.lt_succ_self]
    · by_cases hk2 : h < n
      · simp [hk, hk2, Nat.lt_succ_of_lt hk2]
      · have hk3 : ¬ h < n + 1 := by omega
        simp [hk, hk2, hk3]

lemma foldl_setSliceW_range (a b : Tensor5) (m : ℕ) (q : ℚ) (n : ℕ) :
    ((List.range n).foldl
      (fun acc x => setSliceW acc x (fun i c k h =>
        a.data i c k h (a.nW - m + x) * (1 - (x : ℚ) / q) +
        acc.data i c k h x * ((x : ℚ) / q))) b) =
    { b with data := fun i c k h w =>
        if w < n then
          a.data i c k h (a.nW - m + w) * (1 - (w : ℚ) / q) +
          b.data i c k h w * ((w : ℚ) / q)
        else b.data i c k h w } := by
  induction n with
  | zero => rfl
  | succ n ih =>
    rw [List.range_succ, List.foldl_append, ih]
    simp only [List.foldl_cons, List.foldl_nil]
    apply Tensor5.ext <;> try rfl
    funext i c k h w
    simp only [setSliceW]
    by_cases hk : w = n
    · subst hk
      simp [Nat.lt_irrefl, Nat.lt_succ_self]
    · by_cases hk2 : w < n
      · simp [hk, hk2, Nat.lt_succ_of_lt hk2]
      · have hk3 : ¬ w < n + 1 := by omega
        simp [hk, hk2, hk3]

/-- C4 counterexample: with both time extents 2 and `blendExtent = 4`, the
loop runs for the clamped bound 2 but sources and weights computed with the
UNclamped extent (as the claim words it) disagree with the code: at index 0
the code writes `a[0]·1 + b[0]·0 = 2` while the claim's formula addresses
`a[2 − 4 + 0]`, an out-of-range slice, with weight `1 − 0/4`. -/
theorem blend_claim_orig_cex :
    ¬ Tensor5.extEq (blend_z aTwo bTwo 4) (blendZClaimOrig aTwo bTwo 4) :=
  of_decide_eq_true (by with_unfolding_all rfl)

/-- C4 amended: every blend operator equals its pointwise closed form in
which the blend extent is first clamped to
`min(blendExtent, extent a, extent b)` and that clamped extent is used for
the loop bound, the trailing-edge source index of `a`, and both
interpolation weights; slices at or beyond the bound are returned
unchanged. -/
theorem blend_ops_closed_form (a b : Tensor5) (e : ℤ) :
    blend_z a b e = blendZPointwise a b e ∧
    blend_v a b e = blendVPointwise a b e ∧
    blend_h a b e = blendHPointwise a b e := by
  refine ⟨?_, ?_, ?_⟩
  · simp only [blend_z, blendZPointwise]
    rw [foldl_setSliceT_range]
    apply Tensor5.ext <;> try rfl
    funext i c k h w
    simp only [Int.lt_toNat]
  · simp only [blend_v, blendVPointwise]
    rw [foldl_setSliceH_range]
    apply Tensor5.ext <;> try rfl
    funext i c k h w
    simp only [Int.lt_toNat]
  · simp only [blend_h, blendHPointwise]
    rw [foldl_setSliceW_range]
    apply Tensor5.ext <;> try rfl
    funext i c k h w
    simp only [Int.lt_toNat]

lemma rangeStep_mem_lt {stop step i : ℕ} (h : i ∈ rangeStep stop step) : i < stop := by
  unfold rangeStep at h
  split at h
  · simp at h
  · rename_i hstep
    rcases List.mem_map.mp h with ⟨j, hj, rfl⟩
    rw [List.mem_range] at hj
    have h1 : 0 < step := Nat.pos_of_ne_zero hstep
    have h2 : (j + 1) * step ≤ stop + step - 1 := (Nat.le_div_iff_mul_le h1).mp hj
    have h3 : j * step + step = (j + 1) * step := by ring
    omega

lemma encZStride_eq (st : VaeState) : encZStride st = 6 * st.z_sample_size := by
  unfold encZStride
  have h : ((st.z_sample_size * 8 : ℤ) : ℚ) * ((1 : ℚ) - 1 / 4) =
      ((6 * st.z_sample_size : ℤ) : ℚ) := by
    push_cast
    ring
  rw [h, pyInt_intCast]

lemma composeRowZAux_chain (be tl : ℤ) (seg chain : ℕ → Tensor5)
    (hS : ∀ j, chain (j + 1) = blend_z (chain j) (seg (j + 1)) be) :
    ∀ (m j : ℕ),
      composeRowZAux be tl (chain j) ((List.range' (j + 1) m).map seg) =
        (List.range' (j + 1) m).map (fun j2 => cropT (chain j2) tl) := by
  intro m
  induction m with
  | zero => intro j; rfl
  | succ m ih =>
    intro j
    rw [List.range'_succ]
    simp only [List.map_cons, composeRowZAux]
    rw [← hS j]
    have hrec := ih (j + 1)
    rw [hrec]

lemma composeRowZ_chain (be tl : ℤ) (seg chain : ℕ → Tensor5)
    (h0 : chain 0 = seg 0)
    (hS : ∀ j, chain (j + 1) = blend_z (chain j) (seg (j + 1)) be) (n : ℕ) :
    composeRowZ be tl ((List.range n).map seg) =
      (List.range n).map (fun j =>
        if j = 0 then cropT (chain j) (tl + 1) else cropT (chain j) tl) := by
  cases n with
  | zero => rfl
  | succ m =>
    rw [List.range_eq_range', List.range'_succ]
    simp only [List.map_cons, composeRowZ]
    rw [← h0, composeRowZAux_chain be tl seg chain hS m 0]
    congr 1
    apply List.map_congr_left
    intro j hj
    rcases List.mem_range'.mp hj with ⟨i2, _, rfl⟩
    rw [if_neg (by omega)]

/-- C5 counterexample: with `z_sample_size = 4` and a volume of time
length 6 the temporal encode path engages (6 > 4 + 1), yet its single
extracted window has length 6, not the claimed `sampleTimeTileSize + 1 =
33`: extraction clamps at the end of the volume. -/
theorem encode_window_length_cex :
    zPathCond stZ4 zSix.nT = true ∧
    ¬ (∀ i ∈ rangeStep zSix.nT (encZStride stZ4).toNat,
        (encZWindow stZ4 zSix i).nT = (stZ4.z_sample_size * 8 + 1).toNat) :=
  of_decide_eq_true (by with_unfolding_all rfl)

/-- C5 amended: on the temporal encode path, windows at origins
`0, stride, 2·stride, …` have length `min(sampleTimeTileSize + 1, T − origin)`
(nominal length `sampleTimeTileSize + 1`, clamped at the end of the
volume); each segment after the first drops its leading frame after the
per-window delegate runs; each non-first segment is blended along time
against the previous segment as already blended, and cropped to its
leading `timeLimit` frames while the first is cropped to `timeLimit + 1`;
the cropped segments are concatenated along time in order. -/
theorem encode_temporal_pipeline (st : VaeState) (encPlain encq : Tensor5 → Tensor5)
    (z : Tensor5) (hs : 0 < st.z_sample_size) :
    (∀ i ∈ rangeStep z.nT (encZStride st).toNat,
      (encZWindow st z i).nT = min ((st.z_sample_size * 8 + 1).toNat) (z.nT - i)) ∧
    encodeZTiled st encPlain encq z =
      encodeZTiledSpec st
        (fun t => if st.use_hw_tiling then hw_tiled_encode st encq t else encPlain t)
        z := by
  have hstrpos : 0 < (encZStride st).toNat := by
    rw [encZStride_eq]
    omega
  constructor
  · intro i hi
    have hiT : i < z.nT := rangeStep_mem_lt hi
    simp only [encZWindow, pySliceT, pyIdx]
    split_ifs <;> omega
  · refine Eq.trans (b := catTList (composeRowZ (encZBlendExtent st) (encZTimeLimit st)
      ((rangeStep z.nT (encZStride st).toNat).map (fun (i : ℕ) =>
        if i > 0 then
          dropLeadT (if st.use_hw_tiling then hw_tiled_encode st encq (encZWindow st z i)
            else encPlain (encZWindow st z i))
        else
          (if st.use_hw_tiling then hw_tiled_encode st encq (encZWindow st z i)
            else encPlain (encZWindow st z i)))))) rfl ?_
    have horig : rangeStep z.nT (encZStride st).toNat =
        (List.range (encZNumWindows st z.nT)).map (· * (encZStride st).toNat) := by
      unfold rangeStep encZNumWindows
      rw [if_neg (Nat.pos_iff_ne_zero.mp hstrpos)]
    rw [horig, List.map_map]
    have hseg : ∀ j ∈ List.range (encZNumWindows st z.nT),
        ((fun (i : ℕ) =>
          if i > 0 then
            dropLeadT (if st.use_hw_tiling then hw_tiled_encode st encq (encZWindow st z i)
              else encPlain (encZWindow st z i))
          else
            (if st.use_hw_tiling then hw_tiled_encode st encq (encZWindow st z i)
              else encPlain (encZWindow st z i))) ∘ (· * (encZStride st).toNat)) j =
        encZSegSpec st
          (fun t => if st.use_hw_tiling then hw_tiled_encode st encq t else encPlain t)
          z j := by
      intro j _
      cases j with
      | zero =>
        simp [encZSegSpec, encZWindow, Nat.zero_mul]
      | succ m =>
        have hpos : 0 < (m + 1) * (encZStride st).toNat :=
          Nat.mul_pos (Nat.succ_pos m) hstrpos
        simp only [Function.comp_apply, encZSegSpec, encZWindow]
        rw [if_pos hpos, if_neg (Nat.succ_ne_zero m)]
        simp only [Nat.cast_mul]
    rw [List.map_congr_left hseg]
    rw [composeRowZ_chain (encZBlendExtent st) (encZTimeLimit st)
      (encZSegSpec st
        (fun t => if st.use_hw_tiling then hw_tiled_encode st encq t else encPlain t) z)
      (encZChainSpec st
        (fun t => if st.use_hw_tiling then hw_tiled_encode st encq t else encPlain t) z)
      rfl (fun j => rfl) (encZNumWindows st z.nT)]
    rfl

/-- Witness for the amended C5 at a concrete engaged configuration. -/
theorem encode_temporal_pipeline_witness :
    (∀ i ∈ rangeStep zSix.nT (encZStride stZ4).toNat,
      (encZWindow stZ4 zSix i).nT =
        min ((stZ4.z_sample_size * 8 + 1).toNat) (zSix.nT - i)) ∧
    encodeZTiled stZ4 (fun t => t) (fun t => t) zSix =
      encodeZTiledSpec stZ4
        (fun t => if stZ4.use_hw_tiling then hw_tiled_encode stZ4 (fun t => t) t else t)
        zSix :=
  encode_temporal_pipeline stZ4 (fun t => t) (fun t => t) zSix (by decide)
